import Mathlib

/-!
Font Awesome sprite-sheet generator: grid packing and lookup table.

A shallow embedding of `generate-spritesheets.js`.  The script rasterises every
icon of a style, lays the bitmaps out on a grid of `ICONS_PER_ROW` columns, and
writes a Lua table that maps each icon name to its 1-based grid cell.

Conventions of the embedding.

* Numbers.  Every number that the grid arithmetic touches is a non-negative
  integer far below `2 ^ 53` (array indices are below `2 ^ 32`), or the quotient
  of two such integers.  Integers are `Nat`, the quotient is taken in `ℚ`, and
  `Math.floor` / `Math.ceil` round it as the JavaScript functions do.  The
  definitions take the cell size and the row width as arguments; they agree with
  the JavaScript arithmetic whenever the row width is at least one (JavaScript
  divides by zero to `Infinity` / `NaN`, which `ℚ` does not have).
* Objects.  A plain object used as a dictionary is the list of its own
  properties in creation order, together with the object that an assignment to
  the key `__proto__` has made its prototype: on an object literal that
  assignment runs the setter inherited from `Object.prototype` and creates no
  own property.
* Effects.  Globbing, rasterisation, the image library and the file system are
  external collaborators.  The embedding keeps what the script computes and
  hands to them: the canvas request, the composite operations, and the text of
  the Lua file.  Of the image library it keeps the check that the constructor
  makes of a `create` request, which decides whether the script gets as far as
  the placement loop; the calls after it are taken to succeed.  Console output
  of the progress bars is left out; the timer wrapper `withTimer` is modelled by
  explicit state passing.
-/

namespace SpriteSheets

/-! ## Constants -/

/-- Size of each icon in pixels: `const ICON_SIZE = 64`. -/
def ICON_SIZE : Nat := 64

/-- Number of icons in a row: `const ICONS_PER_ROW = 32`. -/
def ICONS_PER_ROW : Nat := 32

/-! ## Numbers -/

/-- The function `Math.floor`, on the non-negative quotients the script forms. -/
def Math.floor (q : ℚ) : Nat := ⌊q⌋₊

/-- The function `Math.ceil`, on the non-negative quotients the script forms. -/
def Math.ceil (q : ℚ) : Nat := ⌈q⌉₊

/-- Conversion of a number to text inside a template literal.  For the
non-negative integers of a lookup table this is the decimal numeral. -/
def numberToString (n : Nat) : String := Nat.repr n

/-! ## Icons and the lookup table object -/

/-- An element of the `icons` array: `{ name: iconName, buffer: png }`. -/
structure Icon where
  name : String
  buffer : List Nat
  deriving DecidableEq, Repr

/-- A value of the lookup table: `{ x: col + 1, y: row + 1 }`. -/
structure Position where
  x : Nat
  y : Nat
  deriving DecidableEq, Repr

/-- A plain object whose property values are positions: its own properties, in
the order in which they were created, and the object that has replaced
`Object.prototype` as its prototype, if one has. -/
structure JSObject where
  props : List (String × Position)
  proto : Option Position
  deriving DecidableEq, Repr

/-- The empty object literal `{}`. -/
def JSObject.empty : JSObject := { props := [], proto := none }

/-- Assignment to a property in a property list: an existing property keeps its
place and takes the new value, a new property is added at the end. -/
def setProp : List (String × Position) → String → Position → List (String × Position)
  | [], key, value => [(key, value)]
  | (k, v) :: rest, key, value =>
    if k = key then (k, value) :: rest else (k, v) :: setProp rest key value

/-- The assignment `obj[key] = value`, the value being an object.  The key
`__proto__` is not stored: the object inherits an accessor of that name, whose
setter makes the value the prototype of `obj` and leaves its own properties as
they are.  Every other key is an own data property. -/
def JSObject.set (obj : JSObject) (key : String) (value : Position) : JSObject :=
  if key = "__proto__" then { obj with proto := some value }
  else { obj with props := setProp obj.props key value }

/-- Value of a decimal digit. -/
def digitValue? (c : Char) : Option Nat :=
  if '0' ≤ c ∧ c ≤ '9' then some (c.toNat - '0'.toNat) else none

/-- Value of a string of decimal digits, read after the digits already
accumulated in `acc`. -/
def digitsValue? : List Char → Nat → Option Nat
  | [], acc => some acc
  | c :: cs, acc =>
    match digitValue? c with
    | some d => digitsValue? cs (10 * acc + d)
    | none => none

/-- A property key is an array index when it is the canonical decimal numeral
(no leading zero) of an integer from `0` to `2 ^ 32 - 2`. -/
def arrayIndex? (key : String) : Option Nat :=
  match key.data with
  | [] => none
  | c :: cs =>
    if c = '0' ∧ cs ≠ [] then none
    else
      match digitsValue? (c :: cs) 0 with
      | some n => if n < 2 ^ 32 - 1 then some n else none
      | none => none

/-- The function `Object.entries`: the own properties in the order in which
JavaScript enumerates them, array-index keys first in ascending numeric order,
then every other key in creation order. -/
def Object.entries (obj : JSObject) : List (String × Position) :=
  let indexed := obj.props.filterMap (fun p => (arrayIndex? p.1).map (fun n => (n, p)))
  let sorted := indexed.insertionSort (fun a b => a.1 ≤ b.1)
  sorted.map Prod.snd ++ obj.props.filter (fun p => (arrayIndex? p.1).isNone)

/-! ## `generateLuaTable` -/

/-- The template literal pushed for one entry of the table. -/
def luaPart (key : String) (value : Position) : String :=
  "[\"" ++ key ++ "\"]=\x7bx=" ++ numberToString value.x ++ ",y="
    ++ numberToString value.y ++ "\x7d"

/-- The array `parts` after the loop over `Object.entries(positions)`; every
iteration pushes one element. -/
def luaParts (positions : JSObject) : List String :=
  (Object.entries positions).foldl (fun parts kv => parts ++ [luaPart kv.1 kv.2]) []

/-- The method `Array.prototype.join` on an array of strings. -/
def join : List String → String → String
  | [], _ => ""
  | [p], _ => p
  | p :: q :: rest, sep => p ++ sep ++ join (q :: rest) sep

/-- The function `generateLuaTable`. -/
def generateLuaTable (positions : JSObject) : String :=
  "return\x7b" ++ join (luaParts positions) "," ++ "\x7d"

/-! ## The grid and the placement loop of `generateSpritesheet` -/

/-- The cell of the icon at index `i`:
`row = Math.floor(i / ICONS_PER_ROW)`, `col = i % ICONS_PER_ROW`. -/
def placementOf (cellsPerRow i : Nat) : Nat × Nat :=
  (Math.floor ((i : ℚ) / (cellsPerRow : ℚ)), i % cellsPerRow)

/-- The number of rows: `Math.ceil(totalIcons / ICONS_PER_ROW)`. -/
def rowCount (cellsPerRow totalIcons : Nat) : Nat :=
  Math.ceil ((totalIcons : ℚ) / (cellsPerRow : ℚ))

/-- An element of `compositeOperations`: `{ input, left, top }`. -/
structure CompositeOperation where
  input : List Nat
  left : Nat
  top : Nat
  deriving DecidableEq, Repr

/-- The variables the placement loop updates. -/
structure LoopState where
  compositeOperations : List CompositeOperation
  luaPositions : JSObject
  deriving DecidableEq, Repr

/-- One iteration of the placement loop, for the icon at index `i`. -/
def placementStep (cellSize cellsPerRow : Nat) (st : LoopState) (i : Nat) (icon : Icon) :
    LoopState :=
  let row := (placementOf cellsPerRow i).1
  let col := (placementOf cellsPerRow i).2
  let x := col * cellSize
  let y := row * cellSize
  { compositeOperations :=
      st.compositeOperations ++ [{ input := icon.buffer, left := x, top := y }]
    luaPositions := st.luaPositions.set icon.name { x := col + 1, y := row + 1 } }

/-- The placement loop over the icons that remain, the first of which has
index `i`. -/
def placementLoopFrom (cellSize cellsPerRow : Nat) : List Icon → Nat → LoopState → LoopState
  | [], _, st => st
  | icon :: rest, i, st =>
    placementLoopFrom cellSize cellsPerRow rest (i + 1) (placementStep cellSize cellsPerRow st i icon)

/-- The placement loop `for (let i = 0; i < icons.length; i++)`, started with
empty `compositeOperations` and `luaPositions`. -/
def placementLoop (cellSize cellsPerRow : Nat) (icons : List Icon) : LoopState :=
  placementLoopFrom cellSize cellsPerRow icons 0 ⟨[], JSObject.empty⟩

/-- The `create` option handed to the image library for the blank sheet. -/
structure CreateOptions where
  width : Nat
  height : Nat
  channels : Nat
  background : Nat × Nat × Nat × Nat
  deriving DecidableEq, Repr

/-- A thrown JavaScript error, by the name of its class. -/
structure JSError where
  name : String
  deriving DecidableEq, Repr

/-- The sheet dimensions `totalIcons`, `rows`, `width`, `height`. -/
structure SheetSize where
  totalIcons : Nat
  rows : Nat
  width : Nat
  height : Nat
  deriving DecidableEq, Repr

/-- The dimensions that `generateSpritesheet` computes from the icons:
`rows = Math.ceil(totalIcons / ICONS_PER_ROW)`, `width = ICONS_PER_ROW * ICON_SIZE`,
`height = rows * ICON_SIZE`. -/
def sheetSize (icons : List Icon) : SheetSize :=
  let totalIcons := icons.length
  let rows := rowCount ICONS_PER_ROW totalIcons
  let width := ICONS_PER_ROW * ICON_SIZE
  let height := rows * ICON_SIZE
  { totalIcons := totalIcons, rows := rows, width := width, height := height }

/-- The `create` option that `generateSpritesheet` passes to the image library:
the computed width and height, four channels, a transparent background. -/
def createOptions (icons : List Icon) : CreateOptions :=
  { width := (sheetSize icons).width
    height := (sheetSize icons).height
    channels := 4
    background := (0, 0, 0, 0) }

/-- The constructor `sharp({ create })` of the image library.  The library is
not part of the repository; what is kept of it is the check of the request: the
constructor throws an `Error` unless width and height are positive integers, and
with a background it wants three or four channels. -/
def sharpCreate (create : CreateOptions) : Except JSError CreateOptions :=
  if 0 < create.width ∧ 0 < create.height ∧ (create.channels = 3 ∨ create.channels = 4) then
    Except.ok create
  else
    Except.error { name := "Error" }

/-- What `generateSpritesheet` has computed and handed on when it returns: the
sheet dimensions, the canvas request, the composite operations, the lookup table
and the text written to `sheet.lua`. -/
structure Spritesheet where
  totalIcons : Nat
  rows : Nat
  width : Nat
  height : Nat
  create : CreateOptions
  compositeOperations : List CompositeOperation
  luaPositions : JSObject
  luaSource : String
  deriving DecidableEq, Repr

/-- The function `generateSpritesheet`, from the converted icons on: the
dimensions, the blank sheet, the placement loop, the Lua text.  An error thrown
by the constructor of the blank sheet ends the function before the lookup table
exists. -/
def generateSpritesheet (icons : List Icon) : Except JSError Spritesheet :=
  let size := sheetSize icons
  match sharpCreate (createOptions icons) with
  | Except.error e => Except.error e
  | Except.ok create =>
    let st := placementLoop ICON_SIZE ICONS_PER_ROW icons
    Except.ok
      { totalIcons := size.totalIcons
        rows := size.rows
        width := size.width
        height := size.height
        create := create
        compositeOperations := st.compositeOperations
        luaPositions := st.luaPositions
        luaSource := generateLuaTable st.luaPositions }

/-! ## What the sheet looks like -/

/-- The composite operation `op` paints the pixel `(px, py)`: every input is a
bitmap of `cellSize` by `cellSize` pixels (`convertSvgToPng` resizes to
`ICON_SIZE` by `ICON_SIZE`), drawn with its top-left corner at
`(op.left, op.top)`. -/
def paints (cellSize : Nat) (op : CompositeOperation) (px py : Nat) : Bool :=
  decide (op.left ≤ px ∧ px < op.left + cellSize ∧ op.top ≤ py ∧ py < op.top + cellSize)

/-- The cell `(r, c)` is occupied when one of the `n` icons is placed on it. -/
def occupied (cellsPerRow n r c : Nat) : Prop :=
  ∃ i, i < n ∧ placementOf cellsPerRow i = (r, c)

/-! ## The Lua text as the specification words it -/

/-- One item of the table literal: `["name"]={x=<int>,y=<int>}`. -/
def luaItemText (entry : String × Position) : String :=
  "[\"" ++ entry.1 ++ "\"]=\x7bx=" ++ numberToString entry.2.x ++ ",y="
    ++ numberToString entry.2.y ++ "\x7d"

/-- The table literal for the entries in the given order: `return`, an opening
brace, the items separated by single commas, a closing brace. -/
def luaTableText (entries : List (String × Position)) : String :=
  "return\x7b" ++ String.intercalate "," (entries.map luaItemText) ++ "\x7d"

/-! ## Closed forms of what the placement loop builds -/

/-- The lookup-table value of the icon at index `i`. -/
def positionOf (cellsPerRow i : Nat) : Position :=
  { x := i % cellsPerRow + 1, y := i / cellsPerRow + 1 }

/-- The composite operation of the icon at index `i`. -/
def operationOf (cellSize cellsPerRow i : Nat) (icon : Icon) : CompositeOperation :=
  { input := icon.buffer, left := i % cellsPerRow * cellSize, top := i / cellsPerRow * cellSize }

/-- The properties that icons with distinct names, none of them `__proto__`,
add, the first icon having index `i`. -/
def propsFrom (cellsPerRow : Nat) : List Icon → Nat → List (String × Position)
  | [], _ => []
  | icon :: rest, i => (icon.name, positionOf cellsPerRow i) :: propsFrom cellsPerRow rest (i + 1)

/-- The lookup table after the assignments of the icons, the first icon having
index `i`, to the table `obj`. -/
def tableFrom (cellsPerRow : Nat) : List Icon → Nat → JSObject → JSObject
  | [], _, obj => obj
  | icon :: rest, i, obj =>
    tableFrom cellsPerRow rest (i + 1) (obj.set icon.name (positionOf cellsPerRow i))

/-- The operations that the icons add, the first icon having index `i`. -/
def operationsFrom (cellSize cellsPerRow : Nat) : List Icon → Nat → List CompositeOperation
  | [], _ => []
  | icon :: rest, i =>
    operationOf cellSize cellsPerRow i icon :: operationsFrom cellSize cellsPerRow rest (i + 1)

/-! ## `withTimer` -/

/-- A line written to the console by `withTimer`; the elapsed time is kept in
milliseconds, before `formatTime`. -/
inductive ConsoleLine where
  | elapsed (message : String) (ms : Int)
  | completed (message : String) (ms : Int)
  deriving DecidableEq, Repr

/-- A repeating timer made by `setInterval` for the callback `updateTimer`,
with the variables the callback closes over. -/
structure Timeout where
  id : Nat
  message : String
  startTime : Int
  delay : Nat
  deriving DecidableEq, Repr

/-- The part of the runtime that `withTimer` acts on: the clock read by
`Date.now()`, the timers that are active, and the console. -/
structure Runtime where
  now : Int
  nextTimeoutId : Nat
  intervals : List Timeout
  stdout : List ConsoleLine
  deriving DecidableEq, Repr

/-- The call `process.stdout.write`. -/
def Runtime.write (rt : Runtime) (line : ConsoleLine) : Runtime :=
  { rt with stdout := rt.stdout ++ [line] }

/-- The callback `updateTimer`, run by the runtime each time the timer fires. -/
def updateTimer (timer : Timeout) (rt : Runtime) : Runtime :=
  rt.write (ConsoleLine.elapsed timer.message (rt.now - timer.startTime))

/-- The call `setInterval(updateTimer, delay)`: a new timer becomes active. -/
def setInterval (message : String) (startTime : Int) (delay : Nat) (rt : Runtime) :
    Timeout × Runtime :=
  let timer : Timeout :=
    { id := rt.nextTimeoutId, message := message, startTime := startTime, delay := delay }
  (timer, { rt with nextTimeoutId := rt.nextTimeoutId + 1, intervals := rt.intervals ++ [timer] })

/-- The call `clearInterval(timer)`: the timer is no longer active. -/
def clearInterval (timer : Timeout) (rt : Runtime) : Runtime :=
  { rt with intervals := rt.intervals.filter (fun t => t.id ≠ timer.id) }

/-- An awaited operation: from the runtime in which it starts, it settles with a
value or with an error, in the runtime that the wait leaves behind (time has
passed, timers have fired). -/
abbrev Operation (α : Type) := Runtime → Except JSError α × Runtime

/-- The function `withTimer`: the `try` block, then the `finally` block. -/
def withTimer {α : Type} (message : String) (operation : Operation α) (rt : Runtime) :
    Except JSError α × Runtime :=
  let startTime := rt.now
  let started := setInterval message startTime 100 rt
  let timer : Option Timeout := some started.1
  let settled := operation started.2
  let tried : Except JSError α × Runtime :=
    match settled.1 with
    | Except.ok result =>
      let totalTime := settled.2.now - startTime
      (Except.ok result, settled.2.write (ConsoleLine.completed message totalTime))
    | Except.error e => (Except.error e, settled.2)
  let cleared :=
    match timer with
    | some t => clearInterval t tried.2
    | none => tried.2
  (tried.1, cleared)

/-! ## Arithmetic of the grid -/

theorem placementOf_eq (cellsPerRow i : Nat) :
    placementOf cellsPerRow i = (i / cellsPerRow, i % cellsPerRow) := by
  unfold placementOf Math.floor
  rw [Nat.floor_div_eq_div]

theorem rowCount_le_iff {cellsPerRow : Nat} (hP : 0 < cellsPerRow) (n r : Nat) :
    rowCount cellsPerRow n ≤ r ↔ n ≤ r * cellsPerRow := by
  unfold rowCount Math.ceil
  have hq : (0 : ℚ) < (cellsPerRow : ℚ) := by exact_mod_cast hP
  rw [Nat.ceil_le, div_le_iff₀ hq]
  exact_mod_cast Iff.rfl

theorem le_rowCount_mul {cellsPerRow : Nat} (hP : 0 < cellsPerRow) (n : Nat) :
    n ≤ rowCount cellsPerRow n * cellsPerRow :=
  (rowCount_le_iff hP n _).mp (le_refl _)

theorem rowCount_eq {cellsPerRow : Nat} (hP : 0 < cellsPerRow) (n : Nat) :
    rowCount cellsPerRow n = (n + cellsPerRow - 1) / cellsPerRow := by
  apply le_antisymm
  · rw [rowCount_le_iff hP]
    have h := Nat.div_add_mod (n + cellsPerRow - 1) cellsPerRow
    have hm := Nat.mod_lt (n + cellsPerRow - 1) hP
    rw [Nat.mul_comm] at h
    omega
  · rw [Nat.div_le_iff_le_mul_add_pred hP]
    have h := le_rowCount_mul hP n
    rw [Nat.mul_comm] at h
    omega

theorem rowCount_of_dvd {cellsPerRow : Nat} (hP : 0 < cellsPerRow) (n : Nat)
    (hdvd : cellsPerRow ∣ n) : rowCount cellsPerRow n = n / cellsPerRow := by
  obtain ⟨k, rfl⟩ := hdvd
  rw [Nat.mul_div_cancel_left k hP]
  apply le_antisymm
  · rw [rowCount_le_iff hP, Nat.mul_comm]
  · have h := le_rowCount_mul hP (cellsPerRow * k)
    rw [Nat.mul_comm (rowCount cellsPerRow (cellsPerRow * k))] at h
    exact Nat.le_of_mul_le_mul_left h hP

theorem row_lt_rowCount {cellsPerRow : Nat} (hP : 0 < cellsPerRow) {i n : Nat} (hi : i < n) :
    i / cellsPerRow < rowCount cellsPerRow n := by
  by_contra hlt
  have hle : rowCount cellsPerRow n ≤ i / cellsPerRow := Nat.le_of_not_lt hlt
  rw [rowCount_le_iff hP] at hle
  have := Nat.div_mul_le_self i cellsPerRow
  omega

/-! ## Property lists -/

theorem setProp_of_not_mem (l : List (String × Position)) (key : String) (value : Position)
    (hk : key ∉ l.map Prod.fst) : setProp l key value = l ++ [(key, value)] := by
  induction l with
  | nil => rfl
  | cons p rest ih =>
    obtain ⟨k, v⟩ := p
    simp only [List.map_cons, List.mem_cons, not_or] at hk
    have hne : ¬ k = key := fun h => hk.1 h.symm
    simp [setProp, hne, ih hk.2]

theorem mem_setProp (l : List (String × Position)) (key : String) (value : Position)
    (p : String × Position) (hp : p ∈ setProp l key value) : p ∈ l ∨ p = (key, value) := by
  induction l with
  | nil =>
    simp only [setProp, List.mem_singleton] at hp
    exact Or.inr hp
  | cons q rest ih =>
    obtain ⟨k, v⟩ := q
    unfold setProp at hp
    split at hp
    · rename_i hk
      rcases List.mem_cons.mp hp with h | h
      · exact Or.inr (by rw [h, hk])
      · exact Or.inl (List.mem_cons_of_mem _ h)
    · rcases List.mem_cons.mp hp with h | h
      · exact Or.inl (by rw [h]; exact List.mem_cons_self _ _)
      · rcases ih h with h1 | h1
        · exact Or.inl (List.mem_cons_of_mem _ h1)
        · exact Or.inr h1

theorem entries_perm (obj : JSObject) : (Object.entries obj).Perm obj.props := by
  unfold Object.entries
  have hsorted :
      ((obj.props.filterMap (fun p => (arrayIndex? p.1).map (fun n => (n, p)))).insertionSort
          (fun a b => a.1 ≤ b.1)).map Prod.snd
        |>.Perm (obj.props.filter (fun p => (arrayIndex? p.1).isSome)) := by
    refine ((List.perm_insertionSort _ _).map Prod.snd).trans ?_
    apply List.Perm.of_eq
    generalize obj.props = l
    induction l with
    | nil => rfl
    | cons p rest ih =>
      cases h : arrayIndex? p.1 <;> simp [List.filterMap_cons, List.filter_cons, h, ih]
  refine (hsorted.append_right _).trans ?_
  have hnone : (fun p : String × Position => (arrayIndex? p.1).isNone)
      = (fun p => !(arrayIndex? p.1).isSome) := by
    funext p
    cases arrayIndex? p.1 <;> rfl
  rw [hnone]
  exact List.filter_append_perm _ _

theorem entries_length (obj : JSObject) : (Object.entries obj).length = obj.props.length :=
  (entries_perm obj).length_eq

theorem mem_entries (obj : JSObject) (p : String × Position) :
    p ∈ Object.entries obj ↔ p ∈ obj.props :=
  (entries_perm obj).mem_iff

/-! ## The placement loop -/

theorem placementStep_eq (cellSize cellsPerRow : Nat) (st : LoopState) (i : Nat) (icon : Icon) :
    placementStep cellSize cellsPerRow st i icon =
      { compositeOperations :=
          st.compositeOperations ++ [operationOf cellSize cellsPerRow i icon]
        luaPositions := st.luaPositions.set icon.name (positionOf cellsPerRow i) } := by
  simp [placementStep, placementOf_eq, operationOf, positionOf]

theorem propsFrom_map_fst (cellsPerRow : Nat) (icons : List Icon) (i : Nat) :
    (propsFrom cellsPerRow icons i).map Prod.fst = icons.map Icon.name := by
  induction icons generalizing i with
  | nil => rfl
  | cons icon rest ih => simp [propsFrom, ih]

theorem propsFrom_length (cellsPerRow : Nat) (icons : List Icon) (i : Nat) :
    (propsFrom cellsPerRow icons i).length = icons.length := by
  induction icons generalizing i with
  | nil => rfl
  | cons icon rest ih => simp [propsFrom, ih]

theorem operationsFrom_length (cellSize cellsPerRow : Nat) (icons : List Icon) (i : Nat) :
    (operationsFrom cellSize cellsPerRow icons i).length = icons.length := by
  induction icons generalizing i with
  | nil => rfl
  | cons icon rest ih => simp [operationsFrom, ih]

theorem operationsFrom_get? (cellSize cellsPerRow : Nat) (icons : List Icon) (i j : Nat)
    (op : CompositeOperation) (h : (operationsFrom cellSize cellsPerRow icons i).get? j = some op) :
    ∃ icon, icons.get? j = some icon ∧ op = operationOf cellSize cellsPerRow (i + j) icon := by
  induction icons generalizing i j with
  | nil => simp [operationsFrom] at h
  | cons icon rest ih =>
    cases j with
    | zero =>
      simp only [operationsFrom, List.get?_cons_zero, Option.some.injEq] at h
      exact ⟨icon, rfl, by rw [← h]; rfl⟩
    | succ j =>
      simp only [operationsFrom, List.get?_cons_succ] at h
      obtain ⟨ic, h1, h2⟩ := ih (i + 1) j h
      refine ⟨ic, by simpa using h1, ?_⟩
      rw [h2]
      congr 1
      omega

theorem placementLoopFrom_operations (cellSize cellsPerRow : Nat) (icons : List Icon) (i : Nat)
    (st : LoopState) :
    (placementLoopFrom cellSize cellsPerRow icons i st).compositeOperations =
      st.compositeOperations ++ operationsFrom cellSize cellsPerRow icons i := by
  induction icons generalizing i st with
  | nil => simp [placementLoopFrom, operationsFrom]
  | cons icon rest ih =>
    simp [placementLoopFrom, ih, placementStep_eq, operationsFrom]

theorem placementLoop_operations (cellSize cellsPerRow : Nat) (icons : List Icon) :
    (placementLoop cellSize cellsPerRow icons).compositeOperations =
      operationsFrom cellSize cellsPerRow icons 0 := by
  simp [placementLoop, placementLoopFrom_operations]

theorem set_props_of_ne (obj : JSObject) (key : String) (value : Position)
    (hkey : key ≠ "__proto__") : (obj.set key value).props = setProp obj.props key value := by
  simp [JSObject.set, hkey]

theorem mem_set_props (obj : JSObject) (key : String) (value : Position)
    (p : String × Position) (hp : p ∈ (obj.set key value).props) :
    p ∈ obj.props ∨ p = (key, value) := by
  unfold JSObject.set at hp
  split at hp
  · exact Or.inl hp
  · exact mem_setProp _ _ _ _ hp

theorem placementLoopFrom_luaPositions (cellSize cellsPerRow : Nat) (icons : List Icon) (i : Nat)
    (st : LoopState) :
    (placementLoopFrom cellSize cellsPerRow icons i st).luaPositions =
      tableFrom cellsPerRow icons i st.luaPositions := by
  induction icons generalizing i st with
  | nil => rfl
  | cons icon rest ih =>
    simp only [placementLoopFrom, tableFrom]
    rw [ih, placementStep_eq]

theorem placementLoop_luaPositions (cellSize cellsPerRow : Nat) (icons : List Icon) :
    (placementLoop cellSize cellsPerRow icons).luaPositions =
      tableFrom cellsPerRow icons 0 JSObject.empty := by
  unfold placementLoop
  rw [placementLoopFrom_luaPositions]

theorem tableFrom_props (cellsPerRow : Nat) (icons : List Icon) (i : Nat) (obj : JSObject)
    (hnodup : (icons.map Icon.name).Nodup)
    (hordinary : "__proto__" ∉ icons.map Icon.name)
    (hfresh : ∀ name ∈ icons.map Icon.name, name ∉ obj.props.map Prod.fst) :
    (tableFrom cellsPerRow icons i obj).props = obj.props ++ propsFrom cellsPerRow icons i := by
  induction icons generalizing i obj with
  | nil => simp [tableFrom, propsFrom]
  | cons icon rest ih =>
    simp only [List.map_cons, List.nodup_cons] at hnodup
    simp only [List.map_cons, List.mem_cons, not_or] at hordinary
    have hhead : icon.name ∉ obj.props.map Prod.fst := hfresh icon.name (by simp)
    have hstep : (obj.set icon.name (positionOf cellsPerRow i)).props =
        obj.props ++ [(icon.name, positionOf cellsPerRow i)] := by
      rw [set_props_of_ne _ _ _ (fun h => hordinary.1 h.symm)]
      exact setProp_of_not_mem _ _ _ hhead
    have hfresh2 : ∀ name ∈ rest.map Icon.name,
        name ∉ (obj.set icon.name (positionOf cellsPerRow i)).props.map Prod.fst := by
      intro name hname
      rw [hstep]
      simp only [List.map_append, List.map_cons, List.map_nil, List.mem_append,
        List.mem_singleton, not_or]
      refine ⟨hfresh name (List.mem_cons_of_mem _ hname), ?_⟩
      intro heq
      exact hnodup.1 (heq ▸ hname)
    simp only [tableFrom]
    rw [ih (i + 1) _ hnodup.2 hordinary.2 hfresh2, hstep]
    simp [propsFrom]

theorem placementLoop_props (cellSize cellsPerRow : Nat) (icons : List Icon)
    (hnodup : (icons.map Icon.name).Nodup)
    (hordinary : "__proto__" ∉ icons.map Icon.name) :
    (placementLoop cellSize cellsPerRow icons).luaPositions.props =
      propsFrom cellsPerRow icons 0 := by
  rw [placementLoop_luaPositions,
    tableFrom_props cellsPerRow icons 0 _ hnodup hordinary (by simp [JSObject.empty])]
  simp [JSObject.empty]

theorem mem_propsFrom (cellsPerRow : Nat) (icons : List Icon) (i j : Nat)
    (hj : j < icons.length) :
    ((icons.get ⟨j, hj⟩).name, positionOf cellsPerRow (i + j)) ∈ propsFrom cellsPerRow icons i := by
  induction icons generalizing i j with
  | nil => simp at hj
  | cons icon rest ih =>
    cases j with
    | zero => simp [propsFrom]
    | succ j =>
      have hj2 : j < rest.length := by simpa using hj
      have hrec := ih (i + 1) j hj2
      have hidx : i + 1 + j = i + (j + 1) := by omega
      rw [hidx] at hrec
      simp only [propsFrom]
      exact List.mem_cons_of_mem _ hrec

theorem tableFrom_mem (cellsPerRow : Nat) (icons : List Icon) (i : Nat)
    (obj : JSObject) (p : String × Position)
    (hp : p ∈ (tableFrom cellsPerRow icons i obj).props) :
    p ∈ obj.props ∨
      ∃ j, i ≤ j ∧ j < i + icons.length ∧ p.2 = positionOf cellsPerRow j := by
  induction icons generalizing i obj with
  | nil => exact Or.inl hp
  | cons icon rest ih =>
    simp only [tableFrom] at hp
    rcases ih (i + 1) _ hp with h | ⟨j, h1, h2, h3⟩
    · rcases mem_set_props _ _ _ _ h with h0 | h0
      · exact Or.inl h0
      · refine Or.inr ⟨i, le_refl _, by simp, by rw [h0]⟩
    · refine Or.inr ⟨j, by omega, ?_, h3⟩
      simp only [List.length_cons]
      omega

/-- For icons with pairwise-distinct names, none of them `__proto__`, the
lookup table built by the placement loop has one entry per icon, its keys are
the icon names, and the entry of the icon at index `i` is
`x = i mod cellsPerRow + 1`, `y = floor (i / cellsPerRow) + 1`. -/
theorem luaPositions_of_ordinary_names (cellSize cellsPerRow : Nat) (icons : List Icon)
    (hdistinct : (icons.map Icon.name).Nodup)
    (hordinary : "__proto__" ∉ icons.map Icon.name) :
    (Object.entries (placementLoop cellSize cellsPerRow icons).luaPositions).length
        = icons.length ∧
      ((Object.entries (placementLoop cellSize cellsPerRow icons).luaPositions).map
        Prod.fst).Perm (icons.map Icon.name) ∧
      (∀ (i : Nat) (hi : i < icons.length),
        ((icons.get ⟨i, hi⟩).name,
            ({ x := i % cellsPerRow + 1, y := i / cellsPerRow + 1 } : Position))
          ∈ Object.entries (placementLoop cellSize cellsPerRow icons).luaPositions) := by
  refine ⟨?_, ?_, ?_⟩
  · rw [entries_length, placementLoop_props _ _ _ hdistinct hordinary, propsFrom_length]
  · refine ((entries_perm _).map Prod.fst).trans ?_
    rw [placementLoop_props _ _ _ hdistinct hordinary, propsFrom_map_fst]
  · intro i hi
    rw [mem_entries, placementLoop_props _ _ _ hdistinct hordinary]
    have h := mem_propsFrom cellsPerRow icons 0 i hi
    rw [Nat.zero_add] at h
    exact h

/-! ## Text of the Lua table -/

theorem digitValue_digitChar (k : Nat) (hk : k < 10) : digitValue? (Nat.digitChar k) = some k := by
  interval_cases k <;> decide

theorem digitsValue_toDigitsCore (fuel n : Nat) (ds : List Char) (hfuel : n < fuel) :
    digitsValue? (Nat.toDigitsCore 10 fuel n ds) 0 = digitsValue? ds n := by
  induction fuel generalizing n ds with
  | zero => omega
  | succ fuel ih =>
    have hd := digitValue_digitChar (n % 10) (Nat.mod_lt n (by decide))
    unfold Nat.toDigitsCore
    by_cases h0 : n / 10 = 0
    · have hn : n % 10 = n := by omega
      simp only [h0, if_true, digitsValue?, hd]
      congr 1
      omega
    · simp only [h0, if_false]
      rw [ih (n / 10) _ (by omega)]
      simp only [digitsValue?, hd]
      congr 1
      omega

theorem digitsValue_numberToString (n : Nat) :
    digitsValue? (numberToString n).data 0 = some n := by
  show digitsValue? (Nat.toDigitsCore 10 (n + 1) n []) 0 = some n
  rw [digitsValue_toDigitsCore (n + 1) n [] (by omega)]
  rfl

theorem foldl_push_eq_map {α β : Type} (f : α → β) (l : List α) (acc : List β) :
    l.foldl (fun parts a => parts ++ [f a]) acc = acc ++ l.map f := by
  induction l generalizing acc with
  | nil => simp
  | cons a rest ih => simp [ih]

theorem luaParts_eq_map (positions : JSObject) :
    luaParts positions = (Object.entries positions).map luaItemText := by
  unfold luaParts
  rw [foldl_push_eq_map (fun kv : String × Position => luaPart kv.1 kv.2)]
  simp only [List.nil_append]
  rfl

theorem intercalate_go_append (a b sep : String) (rest : List String) :
    String.intercalate.go (a ++ b) sep rest = a ++ String.intercalate.go b sep rest := by
  induction rest generalizing b with
  | nil => rfl
  | cons q r ih =>
    simp only [String.intercalate.go]
    rw [String.append_assoc, String.append_assoc, ih, String.append_assoc]

theorem join_eq_intercalate (parts : List String) (sep : String) :
    join parts sep = String.intercalate sep parts := by
  cases parts with
  | nil => rfl
  | cons p rest =>
    simp only [String.intercalate]
    induction rest generalizing p with
    | nil => rfl
    | cons q r ih =>
      simp only [join, String.intercalate.go]
      rw [ih q, String.append_assoc, String.append_assoc, intercalate_go_append,
        intercalate_go_append]

/-! ## The blank sheet -/

theorem rowCount_pos {cellsPerRow : Nat} (hP : 0 < cellsPerRow) {n : Nat} (hn : 0 < n) :
    0 < rowCount cellsPerRow n := by
  have h := le_rowCount_mul hP n
  by_contra h0
  have hz : rowCount cellsPerRow n = 0 := by omega
  rw [hz, Nat.zero_mul] at h
  omega

theorem sharpCreate_createOptions (icons : List Icon) (hne : icons ≠ []) :
    sharpCreate (createOptions icons) = Except.ok (createOptions icons) := by
  have hlen : 0 < icons.length := List.length_pos.mpr hne
  have hrows : 0 < rowCount ICONS_PER_ROW icons.length := rowCount_pos (by decide) hlen
  have hheight : 0 < (createOptions icons).height := by
    show 0 < rowCount ICONS_PER_ROW icons.length * ICON_SIZE
    exact Nat.mul_pos hrows (by decide)
  have hwidth : 0 < (createOptions icons).width := by
    show 0 < ICONS_PER_ROW * ICON_SIZE
    decide
  have hchannels : (createOptions icons).channels = 4 := rfl
  unfold sharpCreate
  rw [if_pos ⟨hwidth, hheight, Or.inr hchannels⟩]

theorem generateSpritesheet_of_icons (icons : List Icon) (hne : icons ≠ []) :
    ∃ sheet, generateSpritesheet icons = Except.ok sheet ∧
      sheet.totalIcons = icons.length ∧
      sheet.rows = (sheetSize icons).rows ∧
      sheet.width = 2048 ∧
      sheet.height = sheet.rows * ICON_SIZE ∧
      sheet.create = createOptions icons ∧
      sheet.compositeOperations = (placementLoop ICON_SIZE ICONS_PER_ROW icons).compositeOperations ∧
      sheet.luaPositions = (placementLoop ICON_SIZE ICONS_PER_ROW icons).luaPositions := by
  unfold generateSpritesheet
  rw [sharpCreate_createOptions icons hne]
  exact ⟨_, rfl, rfl, rfl, rfl, rfl, rfl, rfl, rfl⟩

theorem generateSpritesheet_error_name (icons : List Icon) (e : JSError)
    (herr : generateSpritesheet icons = Except.error e) : e.name = "Error" := by
  unfold generateSpritesheet sharpCreate at herr
  split at herr
  · rename_i e2 hcreate
    split at hcreate
    · cases hcreate
    · cases hcreate
      cases herr
      rfl
  · cases herr

/-! ## The lookup table built by the placement loop -/

/-- C1, at an input where the script departs from it: of the three icons `a`,
`__proto__`, `b`, whose names are pairwise distinct, the lookup table built by
the placement loop has two entries and not three.  The assignment for
`__proto__` gives the table a new prototype, the position `x = 2`, `y = 1` of
that icon, and no entry, so the Lua text lists `a` and `b` only. -/
theorem luaPositions_drops_proto_name :
    (List.map Icon.name [⟨"a", []⟩, ⟨"__proto__", []⟩, ⟨"b", []⟩]).Nodup ∧
      (placementLoop ICON_SIZE ICONS_PER_ROW
          [⟨"a", []⟩, ⟨"__proto__", []⟩, ⟨"b", []⟩]).luaPositions
        = { props := [("a", ⟨1, 1⟩), ("b", ⟨3, 1⟩)], proto := some ⟨2, 1⟩ } ∧
      Object.entries (placementLoop ICON_SIZE ICONS_PER_ROW
          [⟨"a", []⟩, ⟨"__proto__", []⟩, ⟨"b", []⟩]).luaPositions
        = [("a", ⟨1, 1⟩), ("b", ⟨3, 1⟩)] ∧
      (Object.entries (placementLoop ICON_SIZE ICONS_PER_ROW
          [⟨"a", []⟩, ⟨"__proto__", []⟩, ⟨"b", []⟩]).luaPositions).length ≠ 3 ∧
      generateLuaTable (placementLoop ICON_SIZE ICONS_PER_ROW
          [⟨"a", []⟩, ⟨"__proto__", []⟩, ⟨"b", []⟩]).luaPositions
        = "return\x7b[\"a\"]=\x7bx=1,y=1\x7d,[\"b\"]=\x7bx=3,y=1\x7d\x7d" := by
  have htable : (placementLoop ICON_SIZE ICONS_PER_ROW
      [⟨"a", []⟩, ⟨"__proto__", []⟩, ⟨"b", []⟩]).luaPositions
      = { props := [("a", ⟨1, 1⟩), ("b", ⟨3, 1⟩)], proto := some ⟨2, 1⟩ } := by
    rw [placementLoop_luaPositions]
    decide
  rw [htable]
  exact ⟨by decide, rfl, by decide, by decide, by decide⟩

/-! ## Rows and canvas -/

/-- C2: for every list of icons, the number of rows that `generateSpritesheet`
computes is `ceil (n / ICONS_PER_ROW)`, the least `r` with `r * ICONS_PER_ROW` at
least the number of icons; the canvas it requests has width
`ICONS_PER_ROW * ICON_SIZE = 2048` and height `rows * ICON_SIZE`; when the number
of icons is a multiple of `ICONS_PER_ROW` the number of rows is the exact
quotient.  When there is an icon the canvas is made, and the sheet returned has
these rows and this canvas. -/
theorem rows_and_canvas (icons : List Icon) :
    (sheetSize icons).totalIcons = icons.length ∧
      (sheetSize icons).rows = Math.ceil ((icons.length : ℚ) / (ICONS_PER_ROW : ℚ)) ∧
      icons.length ≤ (sheetSize icons).rows * ICONS_PER_ROW ∧
      (∀ r : Nat, icons.length ≤ r * ICONS_PER_ROW → (sheetSize icons).rows ≤ r) ∧
      (createOptions icons).width = ICONS_PER_ROW * ICON_SIZE ∧
      (createOptions icons).width = 2048 ∧
      (createOptions icons).height = (sheetSize icons).rows * ICON_SIZE ∧
      (createOptions icons).channels = 4 ∧
      (ICONS_PER_ROW ∣ icons.length → (sheetSize icons).rows = icons.length / ICONS_PER_ROW) ∧
      (icons ≠ [] →
        ∃ sheet, generateSpritesheet icons = Except.ok sheet ∧
          sheet.totalIcons = icons.length ∧
          sheet.rows = (sheetSize icons).rows ∧
          sheet.width = 2048 ∧
          sheet.height = sheet.rows * ICON_SIZE ∧
          sheet.create = createOptions icons) := by
  have hP : 0 < ICONS_PER_ROW := by decide
  refine ⟨rfl, rfl, ?_, ?_, rfl, rfl, rfl, rfl, ?_, ?_⟩
  · exact le_rowCount_mul hP icons.length
  · intro r hr
    exact (rowCount_le_iff hP icons.length r).mpr hr
  · intro hdvd
    exact rowCount_of_dvd hP icons.length hdvd
  · intro hne
    obtain ⟨sheet, hsheet, h1, h2, h3, h4, h5, _⟩ := generateSpritesheet_of_icons icons hne
    exact ⟨sheet, hsheet, h1, h2, h3, h4, h5⟩

/-! ## Cells -/

/-- C3: for indices `i < j < n` the grid cell of icon `i` differs from the grid
cell of icon `j`. -/
theorem placements_distinct (cellsPerRow n i j : Nat) (hP : 0 < cellsPerRow)
    (hij : i < j) (hjn : j < n) :
    placementOf cellsPerRow i ≠ placementOf cellsPerRow j := by
  have _ := hP
  have _ := hjn
  rw [placementOf_eq, placementOf_eq]
  intro heq
  have h1 : i / cellsPerRow = j / cellsPerRow := congrArg Prod.fst heq
  have h2 : i % cellsPerRow = j % cellsPerRow := congrArg Prod.snd heq
  have hi := Nat.div_add_mod i cellsPerRow
  have hj := Nat.div_add_mod j cellsPerRow
  rw [h1, h2] at hi
  omega

/-- Witness of C3: icons 31 and 32 of 40, on a grid 32 cells wide. -/
theorem placements_distinct_witness :
    0 < ICONS_PER_ROW ∧ 31 < 32 ∧ 32 < 40 ∧
      placementOf ICONS_PER_ROW 31 ≠ placementOf ICONS_PER_ROW 32 :=
  ⟨by decide, by decide, by decide,
    placements_distinct ICONS_PER_ROW 40 31 32 (by decide) (by decide) (by decide)⟩

/-- C4: for every index `i` below the number of icons, the cell of icon `i` has
`col < cellsPerRow` and `row < rows`, and every entry of the lookup table has
`1 ≤ x ≤ cellsPerRow` and `1 ≤ y ≤ rows`, where `rows` is the number of rows
computed for the sheet. -/
theorem placement_within_grid (cellSize cellsPerRow : Nat) (icons : List Icon)
    (hP : 0 < cellsPerRow) :
    (∀ i, i < icons.length →
      (placementOf cellsPerRow i).2 < cellsPerRow ∧
      (placementOf cellsPerRow i).1 < rowCount cellsPerRow icons.length) ∧
    (∀ entry ∈ Object.entries (placementLoop cellSize cellsPerRow icons).luaPositions,
      1 ≤ entry.2.x ∧ entry.2.x ≤ cellsPerRow ∧
      1 ≤ entry.2.y ∧ entry.2.y ≤ rowCount cellsPerRow icons.length) := by
  constructor
  · intro i hi
    rw [placementOf_eq]
    exact ⟨Nat.mod_lt i hP, row_lt_rowCount hP hi⟩
  · intro entry hentry
    rw [mem_entries, placementLoop_luaPositions] at hentry
    rcases tableFrom_mem _ _ _ _ _ hentry with h | ⟨j, _, hj, hpos⟩
    · simp [JSObject.empty] at h
    · rw [hpos]
      have hjn : j < icons.length := by omega
      have hcol := Nat.mod_lt j hP
      have hrow := row_lt_rowCount hP hjn
      simp only [positionOf]
      generalize j / cellsPerRow = row at hrow ⊢
      generalize j % cellsPerRow = col at hcol ⊢
      omega

/-- Witness of C4: three icons with the constants of the script. -/
theorem placement_within_grid_witness :
    0 < ICONS_PER_ROW ∧
      ∀ entry ∈ Object.entries (placementLoop ICON_SIZE ICONS_PER_ROW
          [⟨"a", []⟩, ⟨"b", []⟩, ⟨"c", []⟩]).luaPositions,
        1 ≤ entry.2.x ∧ entry.2.x ≤ ICONS_PER_ROW ∧
        1 ≤ entry.2.y ∧ entry.2.y ≤ rowCount ICONS_PER_ROW 3 :=
  ⟨by decide,
    (placement_within_grid ICON_SIZE ICONS_PER_ROW [⟨"a", []⟩, ⟨"b", []⟩, ⟨"c", []⟩]
      (by decide)).2⟩

/-! ## The Lua file -/

/-- C5: for every lookup table, `generateLuaTable` returns `return`, an opening
brace, the items `["k"]={x=..,y=..}` of the entries in enumeration order joined
by single commas with no whitespace, and a closing brace; the array of items
has exactly one element per entry of the table, and the text of a coordinate is
a string of decimal digits whose value is the coordinate.  On the table with
entries `a ↦ (1, 1)` and `b ↦ (2, 1)` the text is
`return{["a"]={x=1,y=1},["b"]={x=2,y=1}}`. -/
theorem generateLuaTable_text (positions : JSObject) :
    generateLuaTable positions = luaTableText (Object.entries positions) ∧
      luaParts positions = (Object.entries positions).map luaItemText ∧
      (luaParts positions).length = (Object.entries positions).length ∧
      (Object.entries positions).length = positions.props.length ∧
      (∀ n : Nat, digitsValue? (numberToString n).data 0 = some n) ∧
      generateLuaTable { props := [("a", ⟨1, 1⟩), ("b", ⟨2, 1⟩)], proto := none }
        = "return\x7b[\"a\"]=\x7bx=1,y=1\x7d,[\"b\"]=\x7bx=2,y=1\x7d\x7d" := by
  refine ⟨?_, luaParts_eq_map positions, ?_, entries_length positions,
    digitsValue_numberToString, by decide⟩
  · unfold generateLuaTable luaTableText
    rw [join_eq_intercalate, luaParts_eq_map]
  · rw [luaParts_eq_map, List.length_map]

/-! ## Drawing -/

/-- C6: for indices `i < j`, the squares of `cellSize` by `cellSize` pixels
painted by the composite operations of icons `i` and `j` have no pixel in
common. -/
theorem composite_squares_disjoint (cellSize cellsPerRow : Nat) (icons : List Icon)
    (i j : Nat) (a b : CompositeOperation) (hP : 0 < cellsPerRow) (hij : i < j)
    (ha : (placementLoop cellSize cellsPerRow icons).compositeOperations.get? i = some a)
    (hb : (placementLoop cellSize cellsPerRow icons).compositeOperations.get? j = some b)
    (px py : Nat) :
    ¬ (paints cellSize a px py = true ∧ paints cellSize b px py = true) := by
  have _ := hP
  rw [placementLoop_operations] at ha hb
  obtain ⟨ia, _, rfl⟩ := operationsFrom_get? _ _ _ _ _ _ ha
  obtain ⟨ib, _, rfl⟩ := operationsFrom_get? _ _ _ _ _ _ hb
  rintro ⟨h1, h2⟩
  simp only [paints, operationOf, decide_eq_true_eq, Nat.zero_add] at h1 h2
  obtain ⟨hax, hax2, hay, hay2⟩ := h1
  obtain ⟨hbx, hbx2, hby, hby2⟩ := h2
  have hcol : i % cellsPerRow = j % cellsPerRow := by
    have e1 : px / cellSize = i % cellsPerRow :=
      Nat.div_eq_of_lt_le hax (by rw [Nat.add_mul, Nat.one_mul]; exact hax2)
    have e2 : px / cellSize = j % cellsPerRow :=
      Nat.div_eq_of_lt_le hbx (by rw [Nat.add_mul, Nat.one_mul]; exact hbx2)
    rw [← e1, ← e2]
  have hrow : i / cellsPerRow = j / cellsPerRow := by
    have e1 : py / cellSize = i / cellsPerRow :=
      Nat.div_eq_of_lt_le hay (by rw [Nat.add_mul, Nat.one_mul]; exact hay2)
    have e2 : py / cellSize = j / cellsPerRow :=
      Nat.div_eq_of_lt_le hby (by rw [Nat.add_mul, Nat.one_mul]; exact hby2)
    rw [← e1, ← e2]
  have hi := Nat.div_add_mod i cellsPerRow
  have hj := Nat.div_add_mod j cellsPerRow
  rw [hrow, hcol] at hi
  omega

/-- Witness of C6: the first two of three icons, at the pixel `(64, 0)` where
the second square begins. -/
theorem composite_squares_disjoint_witness :
    0 < ICONS_PER_ROW ∧ 0 < 1 ∧
      (placementLoop ICON_SIZE ICONS_PER_ROW
        [⟨"a", []⟩, ⟨"b", []⟩, ⟨"c", []⟩]).compositeOperations.get? 0 = some ⟨[], 0, 0⟩ ∧
      (placementLoop ICON_SIZE ICONS_PER_ROW
        [⟨"a", []⟩, ⟨"b", []⟩, ⟨"c", []⟩]).compositeOperations.get? 1 = some ⟨[], 64, 0⟩ ∧
      ¬ (paints ICON_SIZE ⟨[], 0, 0⟩ 64 0 = true ∧ paints ICON_SIZE ⟨[], 64, 0⟩ 64 0 = true) :=
  have ha : (placementLoop ICON_SIZE ICONS_PER_ROW
      [⟨"a", []⟩, ⟨"b", []⟩, ⟨"c", []⟩]).compositeOperations.get? 0 = some ⟨[], 0, 0⟩ := by
    rw [placementLoop_operations]; decide
  have hb : (placementLoop ICON_SIZE ICONS_PER_ROW
      [⟨"a", []⟩, ⟨"b", []⟩, ⟨"c", []⟩]).compositeOperations.get? 1 = some ⟨[], 64, 0⟩ := by
    rw [placementLoop_operations]; decide
  ⟨by decide, by decide, ha, hb,
    composite_squares_disjoint ICON_SIZE ICONS_PER_ROW [⟨"a", []⟩, ⟨"b", []⟩, ⟨"c", []⟩]
      0 1 ⟨[], 0, 0⟩ ⟨[], 64, 0⟩ (by decide) (by decide) ha hb 64 0⟩

/-! ## Density -/

/-- C7: the cell `(row, col)` of icon `i` satisfies `row * cellsPerRow + col = i`,
so that for `n` icons a cell `(r, c)` with `c < cellsPerRow` is occupied exactly
when `r * cellsPerRow + c < n`; with two cells per row the icons `a`, `b`, `c`
are placed at `(0, 0)`, `(0, 1)`, `(1, 0)` and the table maps them to `(1, 1)`,
`(2, 1)`, `(1, 2)`. -/
theorem placements_dense (cellsPerRow : Nat) (hP : 0 < cellsPerRow) :
    (∀ i, (placementOf cellsPerRow i).1 * cellsPerRow + (placementOf cellsPerRow i).2 = i) ∧
      (∀ n r c, c < cellsPerRow → (occupied cellsPerRow n r c ↔ r * cellsPerRow + c < n)) ∧
      List.map (placementOf 2) [0, 1, 2] = [(0, 0), (0, 1), (1, 0)] ∧
      (placementLoop 64 2 [⟨"a", []⟩, ⟨"b", []⟩, ⟨"c", []⟩]).luaPositions.props
        = [("a", ⟨1, 1⟩), ("b", ⟨2, 1⟩), ("c", ⟨1, 2⟩)] := by
  have hindex : ∀ i, (placementOf cellsPerRow i).1 * cellsPerRow
      + (placementOf cellsPerRow i).2 = i := by
    intro i
    rw [placementOf_eq, Nat.mul_comm]
    exact Nat.div_add_mod i cellsPerRow
  refine ⟨hindex, ?_, ?_, ?_⟩
  · intro n r c hc
    constructor
    · rintro ⟨i, hi, hcell⟩
      have h := hindex i
      rw [hcell] at h
      simp only at h
      omega
    · intro hlt
      refine ⟨r * cellsPerRow + c, hlt, ?_⟩
      rw [placementOf_eq]
      have h1 : (r * cellsPerRow + c) / cellsPerRow = r := by
        rw [Nat.mul_comm, Nat.mul_add_div hP, Nat.div_eq_of_lt hc, Nat.add_zero]
      have h2 : (r * cellsPerRow + c) % cellsPerRow = c := by
        rw [Nat.mul_comm, Nat.mul_add_mod, Nat.mod_eq_of_lt hc]
      rw [h1, h2]
  · simp [placementOf_eq]
  · rw [placementLoop_props _ _ _ (by decide) (by decide)]
    decide

/-- Witness of C7: the grid of the script, 32 cells wide. -/
theorem placements_dense_witness :
    0 < ICONS_PER_ROW ∧
      (∀ i, (placementOf ICONS_PER_ROW i).1 * ICONS_PER_ROW
        + (placementOf ICONS_PER_ROW i).2 = i) :=
  ⟨by decide, (placements_dense ICONS_PER_ROW (by decide)).1⟩

/-! ## No icons -/

/-- C8, at the input where the script departs from it: on an empty list of
icons `generateSpritesheet` computes no rows and requests a canvas of width
`ICONS_PER_ROW * ICON_SIZE = 2048` and height `0`; the image library refuses a
canvas of height zero, so the function fails with that `Error` and returns no
lookup table, where the claim has it return the empty table.  The empty table
itself would be written as `return{}`. -/
theorem generateSpritesheet_no_icons_fails :
    (sheetSize []).rows = 0 ∧
      (createOptions []).width = ICONS_PER_ROW * ICON_SIZE ∧
      (createOptions []).width = 2048 ∧
      (createOptions []).height = 0 ∧
      sharpCreate (createOptions []) = Except.error { name := "Error" } ∧
      generateSpritesheet [] = Except.error { name := "Error" } ∧
      (¬ ∃ sheet, generateSpritesheet [] = Except.ok sheet) ∧
      Object.entries JSObject.empty = [] ∧
      generateLuaTable JSObject.empty = "return\x7b\x7d" := by
  have hrows : rowCount ICONS_PER_ROW 0 = 0 := by
    simp [rowCount, Math.ceil]
  have hheight : (createOptions []).height = 0 := by
    show rowCount ICONS_PER_ROW 0 * ICON_SIZE = 0
    rw [hrows, Nat.zero_mul]
  have hcreate : sharpCreate (createOptions []) = Except.error { name := "Error" } := by
    unfold sharpCreate
    rw [if_neg]
    rintro ⟨_, h, _⟩
    rw [hheight] at h
    exact Nat.lt_irrefl 0 h
  have hfail : generateSpritesheet [] = Except.error { name := "Error" } := by
    unfold generateSpritesheet
    rw [hcreate]
  refine ⟨hrows, rfl, rfl, hheight, hcreate, hfail, ?_, by decide, by decide⟩
  rintro ⟨sheet, hsheet⟩
  rw [hfail] at hsheet
  cases hsheet

/-! ## Configuration -/

/-- Counterexample to C9 as stated: the script runs with 32 cells per row and a
cell size of 64, both at least one, and on the empty list of icons the
computation of the sheet still fails, at the request for the blank sheet; the
error is the `Error` of the image library, not an `InvalidConfigurationError`. -/
theorem valid_configuration_can_fail :
    1 ≤ ICONS_PER_ROW ∧ 1 ≤ ICON_SIZE ∧
      ∃ e, generateSpritesheet [] = Except.error e ∧ e.name ≠ "InvalidConfigurationError" := by
  have hrows : rowCount ICONS_PER_ROW 0 = 0 := by
    simp [rowCount, Math.ceil]
  have hcreate : sharpCreate (createOptions []) = Except.error { name := "Error" } := by
    unfold sharpCreate
    rw [if_neg]
    rintro ⟨_, h, _⟩
    have hheight : (createOptions []).height = 0 := by
      show rowCount ICONS_PER_ROW 0 * ICON_SIZE = 0
      rw [hrows, Nat.zero_mul]
    rw [hheight] at h
    exact Nat.lt_irrefl 0 h
  refine ⟨by decide, by decide, { name := "Error" }, ?_, by decide⟩
  unfold generateSpritesheet
  rw [hcreate]

/-- C9, amended: the script raises no `InvalidConfigurationError` on any list
of icons, and with its 32 cells per row and cell size of 64 the computation of
the sheet never fails on a list that has an icon: it returns a sheet of
`ceil (n / 32)` rows, at least one, with the canvas of that size and one
composite operation per icon. -/
theorem generateSpritesheet_of_nonempty (icons : List Icon) (hne : icons ≠ []) :
    (∀ (others : List Icon) (e : JSError),
        generateSpritesheet others = Except.error e → e.name ≠ "InvalidConfigurationError") ∧
      (¬ ∃ e, generateSpritesheet icons = Except.error e) ∧
      ∃ sheet, generateSpritesheet icons = Except.ok sheet ∧
        1 ≤ sheet.rows ∧
        sheet.rows = (icons.length + ICONS_PER_ROW - 1) / ICONS_PER_ROW ∧
        sheet.create.width = ICONS_PER_ROW * ICON_SIZE ∧
        sheet.create.height = sheet.rows * ICON_SIZE ∧
        sheet.compositeOperations.length = icons.length := by
  obtain ⟨sheet, hsheet, _, hrows, _, _, hcreate, hops, _⟩ :=
    generateSpritesheet_of_icons icons hne
  have hP : 0 < ICONS_PER_ROW := by decide
  have hrows2 : sheet.rows = rowCount ICONS_PER_ROW icons.length := hrows
  refine ⟨?_, ?_, sheet, hsheet, ?_, ?_, ?_, ?_, ?_⟩
  · intro others e herr
    rw [generateSpritesheet_error_name others e herr]
    decide
  · rintro ⟨e, he⟩
    rw [hsheet] at he
    cases he
  · rw [hrows2]
    exact rowCount_pos hP (List.length_pos.mpr hne)
  · rw [hrows2]
    exact rowCount_eq hP icons.length
  · rw [hcreate]
    rfl
  · rw [hcreate, hrows2]
    rfl
  · rw [hops, placementLoop_operations, operationsFrom_length]

/-- Witness of C9, amended: the three icons `a`, `b`, `c`. -/
theorem generateSpritesheet_of_nonempty_witness :
    ([⟨"a", []⟩, ⟨"b", []⟩, ⟨"c", []⟩] : List Icon) ≠ [] ∧
      ¬ ∃ e, generateSpritesheet [⟨"a", []⟩, ⟨"b", []⟩, ⟨"c", []⟩] = Except.error e :=
  ⟨by decide,
    (generateSpritesheet_of_nonempty [⟨"a", []⟩, ⟨"b", []⟩, ⟨"c", []⟩] (by decide)).2.1⟩

/-! ## The timer -/

/-- C10: for every operation and every runtime, the timer that `withTimer`
starts is active while the operation runs and is not among the active timers
when `withTimer` finishes, whether the operation returned a value or failed;
`withTimer` settles exactly as the operation did: with the operation's result,
or with the operation's error. -/
theorem withTimer_clears_timer {α : Type} (message : String) (operation : Operation α)
    (rt : Runtime) :
    (setInterval message rt.now 100 rt).1 ∈ (setInterval message rt.now 100 rt).2.intervals ∧
      (∀ t ∈ (withTimer message operation rt).2.intervals,
        t.id ≠ (setInterval message rt.now 100 rt).1.id) ∧
      (setInterval message rt.now 100 rt).1 ∉ (withTimer message operation rt).2.intervals ∧
      (withTimer message operation rt).1 = (operation (setInterval message rt.now 100 rt).2).1 ∧
      (∀ result, (operation (setInterval message rt.now 100 rt).2).1 = Except.ok result →
        (withTimer message operation rt).1 = Except.ok result) ∧
      (∀ e, (operation (setInterval message rt.now 100 rt).2).1 = Except.error e →
        (withTimer message operation rt).1 = Except.error e) := by
  have hclear : ∀ t ∈ (withTimer message operation rt).2.intervals,
      t.id ≠ (setInterval message rt.now 100 rt).1.id := by
    intro t ht
    simp only [withTimer, clearInterval, List.mem_filter, decide_eq_true_eq] at ht
    exact ht.2
  have hresult : (withTimer message operation rt).1
      = (operation (setInterval message rt.now 100 rt).2).1 := by
    simp only [withTimer]
    cases (operation (setInterval message rt.now 100 rt).2).1 <;> rfl
  refine ⟨by simp [setInterval], hclear, fun hmem => hclear _ hmem rfl, hresult, ?_, ?_⟩
  · intro result h
    rw [hresult, h]
  · intro e h
    rw [hresult, h]

end SpriteSheets
